import Mathlib

/-!
# OpenMAXSLDemo: the buffer-queue feeder of `jni/OpenMAXSLDemo.c`

A shallow embedding of the streaming part of the program: the statics of the
translation unit become the fields of `World`, every C function becomes a Lean
function on `World`, and the calls the program makes on its collaborators (the
file, the OpenMAX AL buffer queue, the play interface, the condition variable)
are recorded, in program order, in `World.log`.

Conventions of the embedding

* a pointer into `dataCache` is its byte offset from `dataCache`; `NULL` is `none`;
* a handle (`FILE *`, an OpenMAX AL interface) is modelled by what the program
  tests of it: the file is `none` or `some pos` (open, at byte `pos`), an
  interface is a `Bool` (non-`NULL`);
* the file is a fixed byte sequence; `fread` delivers the bytes that are left,
  up to the count asked for (a read of an unopened file delivers nothing);
* the OpenMAX AL calls succeed (`XA_RESULT_SUCCESS`), so the `assert`s on their
  results pass; an `assert` on a value the program computes or receives aborts
  the process when it fails, which sets `World.aborted`;
* the mutex makes the callback body and the two critical sections of the rewind
  atomic; a thread schedule is the order in which these run.
-/

namespace OpenMAXSLDemo

/-! ## Constants (`#define`s and `kEosBufferCntxt`) -/

/-- Number of buffers in the buffer queue (`NB_BUFFERS`). -/
def NB_BUFFERS : Nat := 8

/-- Number of transport stream packets per buffer (`PACKETS_PER_BUFFER`). -/
def PACKETS_PER_BUFFER : Nat := 10

/-- Size of one MPEG-2 transport stream packet (`MPEG2_TS_PACKET_SIZE`). -/
def MPEG2_TS_PACKET_SIZE : Nat := 188

/-- Bytes per buffer (`BUFFER_SIZE`). -/
def BUFFER_SIZE : Nat := PACKETS_PER_BUFFER * MPEG2_TS_PACKET_SIZE

/-- The value that identifies the end-of-stream buffer context (`kEosBufferCntxt`). -/
def kEosBufferCntxt : Nat := 1980

/-! ## Data model -/

/-- Keys of the messages that accompany an enqueued buffer. -/
inductive ItemKey where
  | XA_ANDROID_ITEMKEY_EOS
  | XA_ANDROID_ITEMKEY_DISCONTINUITY
deriving DecidableEq, Repr

/-- Play states the program sets. -/
inductive PlayState where
  | XA_PLAYSTATE_PAUSED
  | XA_PLAYSTATE_PLAYING
deriving DecidableEq, Repr

/-- The arguments of one `Enqueue` call on the buffer queue.  `pBufferContext` is the
value the context pointer points to, `pData` the offset of the data pointer in
`dataCache`, `pMsg` the key of the single item of the message (its `itemSize` is
always 0).  `payload` is the content of `pData[0 .. dataLength)` at the call. -/
structure Enqueued where
  pBufferContext : Option Nat
  pData : Option Nat
  dataLength : Nat
  pMsg : Option ItemKey
  msgLength : Nat
  payload : List Nat
deriving DecidableEq, Repr

/-- The calls the program makes on its collaborators.  `fread dst count pos got lent`
is a read of up to `count` bytes to `dataCache + dst`, issued at file position `pos`,
which delivered `got` bytes, while the consumer held the buffers at offsets `lent`. -/
inductive Action where
  | Enqueue (e : Enqueued)
  | Clear
  | rewind
  | fread (dst count pos got : Nat) (lent : List Nat)
  | SetPlayState (s : PlayState)
  | pthread_cond_signal
deriving DecidableEq, Repr

/-- The statics of the program, its file, the consumer's queue and the trace.

`content` is the byte sequence of the file opened last, `dataCache` the memory of
the cache (byte at each offset), `queue` the items the consumer holds (enqueued and
not yet reported as processed), `log` the calls made so far, oldest first. -/
structure World where
  engineObject : Bool
  engineEngine : Bool
  outputMixObject : Bool
  playerObj : Bool
  playerPlayItf : Bool
  playerBQItf : Bool
  playerVolItf : Bool
  theNativeWindow : Bool
  dataCache : Nat → Nat
  content : List Nat
  file : Option Nat
  reachedEof : Bool
  discontinuity : Bool
  queue : List Enqueued
  log : List Action
  aborted : Bool

/-- The arguments of the buffer queue callback the program reads: `pBufferContext`
is the value behind the context pointer, `pBufferData` the offset of the returned
buffer in `dataCache`.  (`caller` is the queue itself; `dataUsed`, `pItems` and
`itemsLength` are not read by the callback.) -/
structure CallbackArgs where
  pCallbackContext : Option Nat
  pBufferContext : Option Nat
  pBufferData : Option Nat
  dataSize : Nat
deriving DecidableEq, Repr

/-! ## Memory, file and consumer primitives -/

/-- Store `bytes` at offset `dst` of a byte memory. -/
def writeBytes (mem : Nat → Nat) (dst : Nat) (bytes : List Nat) : Nat → Nat :=
  fun a => if dst ≤ a ∧ a < dst + bytes.length then bytes.getD (a - dst) 0 else mem a

/-- The `len` bytes of a byte memory from offset `off`. -/
def readBytes (mem : Nat → Nat) (off len : Nat) : List Nat :=
  (List.range len).map (fun j => mem (off + j))

/-- Offsets of the pool buffers the consumer holds. -/
def lentOffsets (q : List Enqueued) : List Nat :=
  q.filterMap (fun e => e.pData)

/-- Library call `fread(dataCache + dst, 1, count, file)`: delivers the bytes left in the
file, up to `count`, stores them at `dst`, advances the position, returns the count. -/
def fread (w : World) (dst count : Nat) : Nat × World :=
  match w.file with
  | none => (0, w)
  | some pos =>
    let bytes := (w.content.drop pos).take count
    (bytes.length,
      { w with
        file := some (pos + bytes.length)
        dataCache := writeBytes w.dataCache dst bytes
        log := w.log ++ [Action.fread dst count pos bytes.length (lentOffsets w.queue)] })

/-- Library call `rewind(file)`. -/
def rewind (w : World) : World :=
  { w with file := w.file.map (fun _ => 0), log := w.log ++ [Action.rewind] }

/-- Buffer queue call `Enqueue`: the consumer takes the item. -/
def Enqueue (w : World) (pBufferContext pData : Option Nat) (dataLength : Nat)
    (pMsg : Option ItemKey) (msgLength : Nat) : World :=
  let e : Enqueued :=
    { pBufferContext := pBufferContext
      pData := pData
      dataLength := dataLength
      pMsg := pMsg
      msgLength := msgLength
      payload := match pData with
        | some off => readBytes w.dataCache off dataLength
        | none => [] }
  { w with queue := w.queue ++ [e], log := w.log ++ [Action.Enqueue e] }

/-- Buffer queue call `Clear`: the consumer drops every item it holds. -/
def Clear (w : World) : World :=
  { w with queue := [], log := w.log ++ [Action.Clear] }

/-- Play interface call `SetPlayState`. -/
def SetPlayState (w : World) (s : PlayState) : World :=
  { w with log := w.log ++ [Action.SetPlayState s] }

/-- Call `pthread_cond_signal(&cond)`. -/
def pthread_cond_signal (w : World) : World :=
  { w with log := w.log ++ [Action.pthread_cond_signal] }

/-- A failed `assert`: the process aborts. -/
def abort (w : World) : World :=
  { w with aborted := true }

/-! ## The program -/

/-- The `for` loop of `enqueueInitialBuffers`, `n` being `NB_BUFFERS - i`
(the loop runs while `i < NB_BUFFERS && packetsRead > 0`).  `discontinuity` is the
parameter of the function, which hides the static of the same name. -/
def enqueueLoop : Nat → Nat → Nat → Bool → World → World
  | 0, _, _, _, w => w
  | n + 1, i, packetsRead, discontinuity, w =>
    if packetsRead > 0 then
      let packetsThisBuffer :=
        if packetsRead > PACKETS_PER_BUFFER then PACKETS_PER_BUFFER else packetsRead
      let bufferSize := packetsThisBuffer * MPEG2_TS_PACKET_SIZE
      if discontinuity then
        enqueueLoop n (i + 1) (packetsRead - packetsThisBuffer) false
          (Enqueue w none (some (i * BUFFER_SIZE)) bufferSize
            (some ItemKey.XA_ANDROID_ITEMKEY_DISCONTINUITY) (4 * 2))
      else
        enqueueLoop n (i + 1) (packetsRead - packetsThisBuffer) discontinuity
          (Enqueue w none (some (i * BUFFER_SIZE)) bufferSize none 0)
    else w

/-- Function `enqueueInitialBuffers`: fill the cache and enqueue it, buffer by buffer. -/
def enqueueInitialBuffers (w : World) (discontinuity : Bool) : Bool × World :=
  let r := fread w 0 (BUFFER_SIZE * NB_BUFFERS)
  let bytesRead := r.1
  if bytesRead ≤ 0 then
    (false, r.2)
  else
    let packetsRead := bytesRead / MPEG2_TS_PACKET_SIZE
    (true, enqueueLoop NB_BUFFERS 0 packetsRead discontinuity r.2)

/-- Function `AndroidBufferQueueCallback`, run under the mutex. -/
def AndroidBufferQueueCallback (w : World) (a : CallbackArgs) : World :=
  if a.pCallbackContext ≠ none then abort w
  else if w.discontinuity then
    let w1 :=
      if !w.reachedEof then (enqueueInitialBuffers (rewind (Clear w)) true).2 else w
    pthread_cond_signal { w1 with discontinuity := false }
  else if a.pBufferData = none ∧ a.pBufferContext ≠ none ∧
      a.pBufferContext = some kEosBufferCntxt then
    if a.dataSize = 0 then w else abort w
  else if ¬ (a.dataSize > 0 ∧ a.dataSize % MPEG2_TS_PACKET_SIZE = 0) then abort w
  else
    match a.pBufferData with
    | none => abort w
    | some off =>
      if ¬ (off < BUFFER_SIZE * NB_BUFFERS) then abort w
      else if ¬ (off % BUFFER_SIZE = 0) then abort w
      else if w.reachedEof then w
      else
        let r := fread w off BUFFER_SIZE
        let bytesRead := r.1
        if bytesRead > 0 then
          let packetsRead := bytesRead / MPEG2_TS_PACKET_SIZE
          let bufferSize := packetsRead * MPEG2_TS_PACKET_SIZE
          Enqueue r.2 none (some off) bufferSize none 0
        else
          { Enqueue r.2 (some kEosBufferCntxt) none 0
              (some ItemKey.XA_ANDROID_ITEMKEY_EOS) (4 * 2) with reachedEof := true }

/-- Function `naCreateStreamingMediaPlayer`.  `opened` is the outcome of `fopen`:
`none` when the file cannot be opened, else its bytes.  The new player starts with
an empty queue.  (The conversion of the file name, the configuration of source and
sinks, and the registration of the callback, whose context is `NULL`, change none of
the statics modelled; the `assert` of line 300 names no declared variable.) -/
def naCreateStreamingMediaPlayer (w : World) (opened : Option (List Nat)) : Bool × World :=
  match opened with
  | none => (false, { w with file := none })
  | some bytes =>
    let w1 : World :=
      { w with
        content := bytes
        file := some 0
        playerObj := true
        playerPlayItf := true
        playerBQItf := true
        queue := [] }
    let r := enqueueInitialBuffers w1 false
    if !r.1 then (false, r.2)
    else
      (true, SetPlayState (SetPlayState r.2 PlayState.XA_PLAYSTATE_PAUSED)
        PlayState.XA_PLAYSTATE_PLAYING)

/-- Function `naShutdown`. -/
def naShutdown (w : World) : World :=
  let w1 : World :=
    if w.playerObj then
      { w with playerObj := false, playerPlayItf := false, playerBQItf := false,
               playerVolItf := false, queue := [] }
    else w
  let w2 : World := if w1.outputMixObject then { w1 with outputMixObject := false } else w1
  let w3 : World :=
    if w2.engineObject then { w2 with engineObject := false, engineEngine := false } else w2
  let w4 : World := if w3.file.isSome then { w3 with file := none } else w3
  if w4.theNativeWindow then { w4 with theNativeWindow := false } else w4

/-- One invocation of the callback by the consumer's thread (none once aborted). -/
def callbackStep (w : World) (a : CallbackArgs) : World :=
  if w.aborted then w else AndroidBufferQueueCallback w a

/-- The first critical section of `naRewindStreamingMediaPlayer`: the guard and the
request. -/
def rewindRequest (w : World) : World :=
  if w.playerBQItf ∧ w.file.isSome then { w with discontinuity := true } else w

/-- The wait loop of `naRewindStreamingMediaPlayer`.  Each `pthread_cond_wait` releases
the mutex; the next element of the schedule lists the callback invocations that run
before the waiter holds the mutex again.  `none`: the waiter is still blocked when
the schedule ends (or the process aborted). -/
def rewindWait : List (List CallbackArgs) → World → Option World
  | [], w => if w.discontinuity ∧ ¬ w.reachedEof then none else some w
  | batch :: rest, w =>
    if w.discontinuity ∧ ¬ w.reachedEof then
      let w1 := batch.foldl callbackStep w
      if w1.aborted then none else rewindWait rest w1
    else some w

/-- Function `naRewindStreamingMediaPlayer` under a schedule of the callback thread. -/
def naRewindStreamingMediaPlayer (w : World) (sched : List (List CallbackArgs)) :
    Option World :=
  if w.playerBQItf ∧ w.file.isSome then
    rewindWait sched { w with discontinuity := true }
  else some w

/-! ## Sessions -/

/-- The callback arguments for a processed item. -/
def argsOf (e : Enqueued) : CallbackArgs :=
  { pCallbackContext := none
    pBufferContext := e.pBufferContext
    pBufferData := e.pData
    dataSize := e.dataLength }

/-- The consumer reports the `i`-th item it holds as processed: the item leaves the
queue and the callback runs with its arguments. -/
def processedStep (w : World) (i : Nat) : World :=
  match w.queue.get? i with
  | none => w
  | some e => AndroidBufferQueueCallback { w with queue := w.queue.eraseIdx i } (argsOf e)

/-- The item the loop body of `enqueueInitialBuffers` enqueues at index `i` when
`packetsRead` packets remain, with (`tagged`) or without the discontinuity message. -/
def initialItem (mem : Nat → Nat) (i packetsRead : Nat) (tagged : Bool) : Enqueued :=
  { pBufferContext := none
    pData := some (i * BUFFER_SIZE)
    dataLength := min PACKETS_PER_BUFFER packetsRead * MPEG2_TS_PACKET_SIZE
    pMsg := if tagged then some ItemKey.XA_ANDROID_ITEMKEY_DISCONTINUITY else none
    msgLength := if tagged then 8 else 0
    payload := readBytes mem (i * BUFFER_SIZE)
      (min PACKETS_PER_BUFFER packetsRead * MPEG2_TS_PACKET_SIZE) }

/-- The items enqueued in a trace, oldest first. -/
def enqueuesOf (log : List Action) : List Enqueued :=
  log.filterMap (fun a => match a with
    | Action.Enqueue e => some e
    | _ => none)

/-- The items `enqueueInitialBuffers` enqueues from index `i` on, with `n` buffers
left and `p` packets to enqueue: item `k` (from 0) is at index `i + k`. -/
def initialItems (mem : Nat → Nat) (n i p : Nat) (d : Bool) : List Enqueued :=
  (List.range (min n ((p + 9) / 10))).map
    (fun k => initialItem mem (i + k) (p - 10 * k) (d && k == 0))

/-- The statics as the program is loaded: every handle `NULL`, both flags `JNI_FALSE`,
the cache zeroed, nothing queued, nothing called yet. -/
def loaded : World :=
  { engineObject := false
    engineEngine := false
    outputMixObject := false
    playerObj := false
    playerPlayItf := false
    playerBQItf := false
    playerVolItf := false
    theNativeWindow := false
    dataCache := fun _ => 0
    content := []
    file := none
    reachedEof := false
    discontinuity := false
    queue := []
    log := []
    aborted := false }

/-- A world whose file holds `n` bytes of value 7 and is open at its start. -/
def opened (n : Nat) : World :=
  { loaded with content := List.replicate n 7, file := some 0 }

/-- A callback invocation for the pool buffer at offset 0, returned with 1880 bytes. -/
def firstBuffer : CallbackArgs :=
  { pCallbackContext := none, pBufferContext := none, pBufferData := some 0, dataSize := 1880 }

/-- The world after `naCreateStreamingMediaPlayer`, called in the program as loaded, on
a file of `n` bytes. -/
def afterCreate (n : Nat) : World :=
  (naCreateStreamingMediaPlayer loaded (some (List.replicate n 7))).2

/-- The world `naCreateStreamingMediaPlayer` reaches, on a file that opens with content
`bytes`, when `enqueueInitialBuffers(JNI_FALSE)` has returned. -/
def primed (w : World) (bytes : List Nat) : World :=
  { w with
    content := bytes
    file := some (min 15040 bytes.length)
    playerObj := true
    playerPlayItf := true
    playerBQItf := true
    dataCache := writeBytes w.dataCache 0 (bytes.take 15040)
    queue := initialItems (writeBytes w.dataCache 0 (bytes.take 15040)) 8 0
      (min 15040 bytes.length / 188) false
    log := w.log ++
      Action.fread 0 15040 0 (min 15040 bytes.length) [] ::
      (initialItems (writeBytes w.dataCache 0 (bytes.take 15040)) 8 0
        (min 15040 bytes.length / 188) false).map Action.Enqueue }

/-- A first session on a source of one packet, run until the end of the stream is
signalled (the consumer returns the only buffer, the refill reads nothing), then shut
down. -/
def firstSessionOver : World :=
  naShutdown (processedStep (afterCreate 188) 0)

/-- The outcome of `naCreateStreamingMediaPlayer`, on a source of one packet, after
`firstSessionOver`. -/
def secondCreate : Bool × World :=
  naCreateStreamingMediaPlayer firstSessionOver (some (List.replicate 188 7))

/-- The outcome of `naCreateStreamingMediaPlayer`, called in the program as loaded, on
a file that opens and is empty. -/
def failedCreate : Bool × World :=
  naCreateStreamingMediaPlayer loaded (some [])

/-- The reads of a trace, oldest first: the position each was issued at and the number
of bytes it delivered. -/
def readsOf (log : List Action) : List (Nat × Nat) :=
  log.filterMap (fun a => match a with
    | Action.fread _ _ pos got _ => some (pos, got)
    | _ => none)

/-- Total number of bytes the reads of a trace delivered. -/
def bytesRead (log : List Action) : Nat :=
  ((readsOf log).map Prod.snd).sum

@[simp] theorem MPEG2_TS_PACKET_SIZE_eq : MPEG2_TS_PACKET_SIZE = 188 := rfl

@[simp] theorem PACKETS_PER_BUFFER_eq : PACKETS_PER_BUFFER = 10 := rfl

@[simp] theorem NB_BUFFERS_eq : NB_BUFFERS = 8 := rfl

@[simp] theorem BUFFER_SIZE_eq : BUFFER_SIZE = 1880 := rfl

@[simp] theorem kEosBufferCntxt_eq : kEosBufferCntxt = 1980 := rfl

@[simp] theorem readBytes_length (mem : Nat → Nat) (off len : Nat) :
    (readBytes mem off len).length = len := by
  simp [readBytes]

theorem readBytes_writeBytes (mem : Nat → Nat) (dst o len : Nat) (bytes : List Nat)
    (h : o + len ≤ bytes.length) :
    readBytes (writeBytes mem dst bytes) (dst + o) len = (bytes.drop o).take len := by
  apply List.ext_getElem
  · simp; omega
  · intro j h1 h2
    simp at h1
    have h3 : dst ≤ dst + o + j ∧ dst + o + j < dst + bytes.length := by omega
    have h4 : dst + o + j - dst = o + j := by omega
    have h5 : o + j < bytes.length := by omega
    simp [readBytes, writeBytes, h3, h4, h5, List.getD_eq_getElem?_getD]

/-! ## The priming loop -/

theorem initialItems_zero (mem : Nat → Nat) (i p : Nat) (d : Bool) :
    initialItems mem 0 i p d = [] := by
  simp [initialItems]

theorem initialItems_none (mem : Nat → Nat) (n i : Nat) (d : Bool) :
    initialItems mem n i 0 d = [] := by
  simp [initialItems]

theorem initialItems_succ (mem : Nat → Nat) (n i p : Nat) (d : Bool) (hp : 0 < p) :
    initialItems mem (n + 1) i p d
      = initialItem mem i p d :: initialItems mem n (i + 1) (p - min 10 p) false := by
  have hmin : min (n + 1) ((p + 9) / 10) = min n ((p - min 10 p + 9) / 10) + 1 := by
    omega
  unfold initialItems
  rw [hmin, List.range_succ_eq_map, List.map_cons, List.map_map]
  refine congrArg₂ List.cons ?_ ?_
  · simp
  · apply List.map_congr_left
    intro k _
    have h1 : i + (k + 1) = i + 1 + k := by omega
    have h2 : p - 10 * (k + 1) = p - min 10 p - 10 * k := by omega
    simp only [Function.comp_def, Nat.succ_eq_add_one, h1, h2]
    simp

theorem Enqueue_initial (w : World) (i p : Nat) (d : Bool) :
    Enqueue w none (some (i * BUFFER_SIZE)) (min 10 p * MPEG2_TS_PACKET_SIZE)
        (if d then some ItemKey.XA_ANDROID_ITEMKEY_DISCONTINUITY else none)
        (if d then 8 else 0)
      = { w with
          queue := w.queue ++ [initialItem w.dataCache i p d]
          log := w.log ++ [Action.Enqueue (initialItem w.dataCache i p d)] } := by
  simp [Enqueue, initialItem]

theorem enqueueLoop_eq (n : Nat) : ∀ (i p : Nat) (d : Bool) (w : World),
    enqueueLoop n i p d w =
      { w with
        queue := w.queue ++ initialItems w.dataCache n i p d
        log := w.log ++ (initialItems w.dataCache n i p d).map Action.Enqueue } := by
  induction n with
  | zero => intro i p d w; simp [enqueueLoop, initialItems_zero]
  | succ n ih =>
    intro i p d w
    unfold enqueueLoop
    by_cases hp : p > 0
    · have hfirst : (if p > PACKETS_PER_BUFFER then PACKETS_PER_BUFFER else p) = min 10 p := by
        simp only [PACKETS_PER_BUFFER_eq]
        split <;> omega
      rw [initialItems_succ _ _ _ _ _ hp]
      simp only [hp, if_true, hfirst]
      cases d
      · have h := Enqueue_initial w i p false
        simp only [Bool.false_eq_true, if_false] at h
        simp only [Bool.false_eq_true, if_false, h, ih]
        simp
      · have h := Enqueue_initial w i p true
        simp only [if_true] at h
        have h8 : (4 * 2 : Nat) = 8 := rfl
        simp only [if_true, h8, h, ih]
        simp
    · have hp0 : p = 0 := by omega
      subst hp0
      simp [initialItems_none]

theorem fread_open (w : World) (dst count pos : Nat) (h : w.file = some pos) :
    fread w dst count =
      (min count (w.content.length - pos),
        { w with
          file := some (pos + min count (w.content.length - pos))
          dataCache := writeBytes w.dataCache dst ((w.content.drop pos).take count)
          log := w.log ++ [Action.fread dst count pos (min count (w.content.length - pos))
            (lentOffsets w.queue)] }) := by
  simp [fread, h]

theorem take_drop_take (l : List Nat) (pos count x len : Nat) (h : x + len ≤ count) :
    (((l.drop pos).take count).drop x).take len = (l.drop (pos + x)).take len := by
  rw [List.drop_take, List.take_take, List.drop_drop]
  have : min len (count - x) = len := by omega
  rw [this]

theorem initialItem_payload (m0 : Nat → Nat) (l : List Nat) (pos count i q : Nat) (d : Bool)
    (h1 : i * 1880 + min 10 q * 188 ≤ count)
    (h2 : i * 1880 + min 10 q * 188 ≤ l.length - pos) :
    initialItem (writeBytes m0 0 ((l.drop pos).take count)) i q d =
      { pBufferContext := none
        pData := some (i * 1880)
        dataLength := min 10 q * 188
        pMsg := if d then some ItemKey.XA_ANDROID_ITEMKEY_DISCONTINUITY else none
        msgLength := if d then 8 else 0
        payload := (l.drop (pos + i * 1880)).take (min 10 q * 188) } := by
  have hlen : i * 1880 + min 10 q * 188 ≤ ((l.drop pos).take count).length := by
    simp; omega
  have h := readBytes_writeBytes m0 0 (i * 1880) (min 10 q * 188) _ hlen
  rw [Nat.zero_add] at h
  simp only [initialItem, BUFFER_SIZE_eq, PACKETS_PER_BUFFER_eq, MPEG2_TS_PACKET_SIZE_eq, h,
    take_drop_take l pos count (i * 1880) (min 10 q * 188) h1]

theorem initialItems_length (mem : Nat → Nat) (n i p : Nat) (d : Bool) :
    (initialItems mem n i p d).length = min n ((p + 9) / 10) := by
  simp [initialItems]

theorem initialItems_dataLength_sum (mem : Nat → Nat) (n : Nat) : ∀ (i p : Nat) (d : Bool),
    ((initialItems mem n i p d).map (fun e => e.dataLength)).sum = 188 * min p (10 * n) := by
  induction n with
  | zero => intro i p d; simp [initialItems_zero]
  | succ n ih =>
    intro i p d
    by_cases hp : 0 < p
    · rw [initialItems_succ _ _ _ _ _ hp, List.map_cons, List.sum_cons, ih]
      simp only [initialItem, PACKETS_PER_BUFFER_eq, MPEG2_TS_PACKET_SIZE_eq]
      omega
    · have hp0 : p = 0 := by omega
      subst hp0
      simp [initialItems_none]

theorem initialItems_payload_flatten (m0 : Nat → Nat) (l : List Nat) (pos count n : Nat) :
    ∀ (i p : Nat) (d : Bool),
      i * 1880 + 188 * min p (10 * n) ≤ count →
      i * 1880 + 188 * min p (10 * n) ≤ l.length - pos →
      ((initialItems (writeBytes m0 0 ((l.drop pos).take count)) n i p d).map
          (fun e => e.payload)).flatten
        = (l.drop (pos + i * 1880)).take (188 * min p (10 * n)) := by
  induction n with
  | zero => intro i p d _ _; simp [initialItems_zero]
  | succ n ih =>
    intro i p d h1 h2
    by_cases hp : 0 < p
    · rw [initialItems_succ _ _ _ _ _ hp, List.map_cons, List.flatten_cons,
        initialItem_payload m0 l pos count i p d (by omega) (by omega)]
      by_cases hbig : 10 < p
      · rw [ih (i + 1) (p - min 10 p) false (by omega) (by omega)]
        have e1 : min 10 p * 188 = 1880 := by omega
        have e2 : 188 * min p (10 * (n + 1)) = 1880 + 188 * min (p - min 10 p) (10 * n) := by
          omega
        have e3 : pos + (i + 1) * 1880 = pos + i * 1880 + 1880 := by omega
        simp only [e1, e2, e3, List.take_add, List.drop_drop]
      · have e0 : p - min 10 p = 0 := by omega
        have e1 : 188 * min p (10 * (n + 1)) = min 10 p * 188 := by omega
        rw [e0, initialItems_none, e1]
        simp
    · have hp0 : p = 0 := by omega
      subst hp0
      simp [initialItems_none]

theorem enqueueInitialBuffers_closed (w : World) (d : Bool) (h : w.file = none) :
    enqueueInitialBuffers w d = (false, w) := by
  simp [enqueueInitialBuffers, fread, h]

theorem enqueueInitialBuffers_open (w : World) (d : Bool) (pos : Nat) (h : w.file = some pos) :
    enqueueInitialBuffers w d =
      (decide (0 < min 15040 (w.content.length - pos)),
        { w with
          file := some (pos + min 15040 (w.content.length - pos))
          dataCache := writeBytes w.dataCache 0 ((w.content.drop pos).take 15040)
          queue := w.queue ++
            initialItems (writeBytes w.dataCache 0 ((w.content.drop pos).take 15040)) 8 0
              (min 15040 (w.content.length - pos) / 188) d
          log := w.log ++
            Action.fread 0 15040 pos (min 15040 (w.content.length - pos)) (lentOffsets w.queue) ::
            (initialItems (writeBytes w.dataCache 0 ((w.content.drop pos).take 15040)) 8 0
              (min 15040 (w.content.length - pos) / 188) d).map Action.Enqueue }) := by
  have hc : BUFFER_SIZE * NB_BUFFERS = 15040 := rfl
  unfold enqueueInitialBuffers
  rw [hc, fread_open w 0 15040 pos h]
  by_cases hb : 0 < min 15040 (w.content.length - pos)
  · have hb2 : ¬ (min 15040 (w.content.length - pos) ≤ 0) := by omega
    simp only [hb2, if_false, enqueueLoop_eq, NB_BUFFERS_eq, MPEG2_TS_PACKET_SIZE_eq]
    simp [hb]
  · have hb0 : min 15040 (w.content.length - pos) = 0 := by omega
    simp only [hb0]
    simp [initialItems_none]

theorem initialItems_explicit (m0 : Nat → Nat) (l : List Nat) (pos p : Nat) (d : Bool)
    (h1 : 188 * p ≤ 15040) (h2 : 188 * p ≤ l.length - pos) :
    initialItems (writeBytes m0 0 ((l.drop pos).take 15040)) 8 0 p d =
      (List.range ((p + 9) / 10)).map (fun k =>
        ({ pBufferContext := none
           pData := some (k * BUFFER_SIZE)
           dataLength := min 10 (p - 10 * k) * 188
           pMsg := if d = true ∧ k = 0 then
             some ItemKey.XA_ANDROID_ITEMKEY_DISCONTINUITY else none
           msgLength := if d = true ∧ k = 0 then 8 else 0
           payload := (l.drop (pos + k * BUFFER_SIZE)).take (min 10 (p - 10 * k) * 188) } :
          Enqueued)) := by
  have hmin : min 8 ((p + 9) / 10) = (p + 9) / 10 := by omega
  unfold initialItems
  rw [hmin]
  apply List.map_congr_left
  intro k hk
  rw [List.mem_range] at hk
  rw [Nat.zero_add, initialItem_payload m0 l pos 15040 k (p - 10 * k) (d && k == 0)
    (by omega) (by omega)]
  simp

/-! ## C1: the initial enqueues -/

/-- C1: when the initial read delivers `b` bytes, `0 < b ≤ 8 * 1880`, and `p = b / 188`,
`enqueueInitialBuffers d` returns true and, after the read, makes exactly
`⌈p / 10⌉` calls of `Enqueue`, nothing else: call `k` hands over the cache slot at
offset `k * 1880` with length `min 10 (p - 10 k) * 188`, whose bytes are the bytes of
the source from `k * 1880` after the read position; it carries the discontinuity
message exactly when `d` is true and `k = 0`.  The lengths sum to `188 * p`, the
payloads together are the first `188 * p` bytes read, and for `b = 8 * 1880 - 1`
the lengths are seven times 1880, then 1692. -/
theorem C1_enqueueInitialBuffers_chunks (w : World) (d : Bool) (pos b p : Nat)
    (hfile : w.file = some pos)
    (hb : b = min (BUFFER_SIZE * NB_BUFFERS) (w.content.length - pos))
    (hpos : 0 < b)
    (hp : p = b / MPEG2_TS_PACKET_SIZE) :
    (enqueueInitialBuffers w d).1 = true ∧
    (enqueueInitialBuffers w d).2.log = w.log ++
      Action.fread 0 (BUFFER_SIZE * NB_BUFFERS) pos b (lentOffsets w.queue) ::
      (List.range ((p + 9) / 10)).map (fun k => Action.Enqueue
        { pBufferContext := none
          pData := some (k * BUFFER_SIZE)
          dataLength := min 10 (p - 10 * k) * 188
          pMsg := if d = true ∧ k = 0 then
            some ItemKey.XA_ANDROID_ITEMKEY_DISCONTINUITY else none
          msgLength := if d = true ∧ k = 0 then 8 else 0
          payload := (w.content.drop (pos + k * BUFFER_SIZE)).take (min 10 (p - 10 * k) * 188) }) ∧
    ((List.range ((p + 9) / 10)).map (fun k => min 10 (p - 10 * k) * 188)).sum = 188 * p ∧
    ((List.range ((p + 9) / 10)).map (fun k =>
        (w.content.drop (pos + k * BUFFER_SIZE)).take (min 10 (p - 10 * k) * 188))).flatten
      = (w.content.drop pos).take (188 * p) ∧
    (b = BUFFER_SIZE * NB_BUFFERS - 1 →
      (List.range ((p + 9) / 10)).map (fun k => min 10 (p - 10 * k) * 188)
        = [1880, 1880, 1880, 1880, 1880, 1880, 1880, 1692]) := by
  have hc : BUFFER_SIZE * NB_BUFFERS = 15040 := rfl
  rw [hc] at hb
  simp only [MPEG2_TS_PACKET_SIZE_eq] at hp
  have hp1 : 188 * p ≤ 15040 := by omega
  have hp2 : 188 * p ≤ w.content.length - pos := by omega
  have hitems := initialItems_explicit w.dataCache w.content pos p d hp1 hp2
  have hsum := initialItems_dataLength_sum
    (writeBytes w.dataCache 0 ((w.content.drop pos).take 15040)) 8 0 p d
  have hflat := initialItems_payload_flatten w.dataCache w.content pos 15040 8 0 p d
    (by omega) (by omega)
  rw [hitems, List.map_map] at hsum hflat
  have hmin : min p (10 * 8) = p := by omega
  rw [hmin] at hsum hflat
  rw [enqueueInitialBuffers_open w d pos hfile]
  refine ⟨?_, ?_, ?_, ?_, ?_⟩
  · simp; omega
  · simp only [← hb, ← hp, hitems, hc, List.map_map]
    rfl
  · exact hsum
  · simpa using hflat
  · intro hb'
    have hp79 : p = 79 := by
      have : b = 15039 := hb'
      omega
    subst hp79
    decide

theorem opened_content (n : Nat) : (opened n).content = List.replicate n 7 := rfl

theorem opened_file (n : Nat) : (opened n).file = some 0 := rfl

/-- Witness of C1: a source of `8 * 1880 - 1` bytes, read from its start, with the
discontinuity flag set. -/
theorem C1_enqueueInitialBuffers_chunks_witness :
    (opened 15039).file = some 0 ∧
    15039 = min (BUFFER_SIZE * NB_BUFFERS) ((opened 15039).content.length - 0) ∧
    (enqueueInitialBuffers (opened 15039) true).1 = true ∧
    (List.range ((79 + 9) / 10)).map (fun k => min 10 (79 - 10 * k) * 188)
      = [1880, 1880, 1880, 1880, 1880, 1880, 1880, 1692] :=
  have hb : 15039 = min (BUFFER_SIZE * NB_BUFFERS) ((opened 15039).content.length - 0) := by
    rw [opened_content, List.length_replicate]
    simp
  have h := C1_enqueueInitialBuffers_chunks (opened 15039) true 0 15039 79 (opened_file 15039) hb
    (by decide) (by decide)
  ⟨opened_file 15039, hb, h.1, h.2.2.2.2 rfl⟩

/-! ## Frame facts of the priming -/

theorem enqueueInitialBuffers_frame (w : World) (d : Bool) :
    (enqueueInitialBuffers w d).2.reachedEof = w.reachedEof ∧
    (enqueueInitialBuffers w d).2.discontinuity = w.discontinuity ∧
    (enqueueInitialBuffers w d).2.aborted = w.aborted ∧
    (enqueueInitialBuffers w d).2.content = w.content ∧
    (enqueueInitialBuffers w d).2.playerObj = w.playerObj ∧
    (enqueueInitialBuffers w d).2.playerPlayItf = w.playerPlayItf ∧
    (enqueueInitialBuffers w d).2.playerBQItf = w.playerBQItf ∧
    (enqueueInitialBuffers w d).2.file.isSome = w.file.isSome := by
  cases h : w.file with
  | none => rw [enqueueInitialBuffers_closed w d h]; simp [h]
  | some pos => rw [enqueueInitialBuffers_open w d pos h]; simp [h]

/-- The calls of a priming: its read of the whole cache and its enqueues of data. -/
theorem enqueueInitialBuffers_log (w : World) (d : Bool) :
    ∃ acts : List Action,
      (enqueueInitialBuffers w d).2.log = w.log ++ acts ∧
      ∀ x ∈ acts,
        (∃ pos got lent, x = Action.fread 0 15040 pos got lent) ∨
        (∃ e, x = Action.Enqueue e ∧ e.pBufferContext = none ∧ e.pData ≠ none ∧
          e.pMsg ≠ some ItemKey.XA_ANDROID_ITEMKEY_EOS) := by
  cases h : w.file with
  | none =>
    rw [enqueueInitialBuffers_closed w d h]
    exact ⟨[], by simp, by simp⟩
  | some pos =>
    rw [enqueueInitialBuffers_open w d pos h]
    refine ⟨_, rfl, ?_⟩
    intro x hx
    rw [List.mem_cons] at hx
    rcases hx with hx | hx
    · exact Or.inl ⟨_, _, _, hx⟩
    · right
      rw [List.mem_map] at hx
      obtain ⟨e, he, rfl⟩ := hx
      refine ⟨e, rfl, ?_⟩
      unfold initialItems at he
      rw [List.mem_map] at he
      obtain ⟨k, _, rfl⟩ := he
      refine ⟨rfl, by simp [initialItem], ?_⟩
      simp only [initialItem]
      split <;> simp

/-! ## C2: the discontinuity branch of the callback -/

theorem callback_discontinuity_eq (w : World) (a : CallbackArgs)
    (hctx : a.pCallbackContext = none) (hd : w.discontinuity = true) :
    AndroidBufferQueueCallback w a =
      pthread_cond_signal
        { (if !w.reachedEof then (enqueueInitialBuffers (rewind (Clear w)) true).2 else w) with
          discontinuity := false } := by
  simp [AndroidBufferQueueCallback, hctx, hd]

/-- C2: an invocation of the callback while `discontinuity` is set, for any processed
item.  With `reachedEof` false it is: `Clear`, then `rewind`, which puts the source at
position 0 with nothing queued, then `enqueueInitialBuffers(true)`, then the
acknowledgement.  With `reachedEof` true it is the acknowledgement alone: no `Clear`,
no `rewind`, no `Enqueue`, the source position and the queue as they were.  Either way
`discontinuity` ends false, `reachedEof` is unchanged, and none of the calls made is a
read of one buffer (`BUFFER_SIZE` bytes) or an enqueue of the end-of-stream item. -/
theorem C2_callback_discontinuity (w : World) (a : CallbackArgs)
    (hctx : a.pCallbackContext = none) (hd : w.discontinuity = true) :
    (w.reachedEof = false →
      AndroidBufferQueueCallback w a =
        pthread_cond_signal
          { (enqueueInitialBuffers (rewind (Clear w)) true).2 with discontinuity := false } ∧
      (Clear w).log = w.log ++ [Action.Clear] ∧
      (rewind (Clear w)).log = w.log ++ [Action.Clear, Action.rewind] ∧
      (rewind (Clear w)).file = w.file.map (fun _ => 0) ∧
      (rewind (Clear w)).queue = []) ∧
    (w.reachedEof = true →
      AndroidBufferQueueCallback w a = pthread_cond_signal { w with discontinuity := false } ∧
      (AndroidBufferQueueCallback w a).log = w.log ++ [Action.pthread_cond_signal] ∧
      (AndroidBufferQueueCallback w a).file = w.file ∧
      (AndroidBufferQueueCallback w a).queue = w.queue) ∧
    (AndroidBufferQueueCallback w a).discontinuity = false ∧
    (AndroidBufferQueueCallback w a).reachedEof = w.reachedEof ∧
    (AndroidBufferQueueCallback w a).aborted = w.aborted ∧
    ∃ acts : List Action,
      (AndroidBufferQueueCallback w a).log = w.log ++ acts ∧
      ∀ x ∈ acts,
        (∀ dst pos got lent, x ≠ Action.fread dst BUFFER_SIZE pos got lent) ∧
        (∀ e, x = Action.Enqueue e →
          e.pMsg ≠ some ItemKey.XA_ANDROID_ITEMKEY_EOS ∧ e.pBufferContext = none ∧
          e.pData ≠ none) := by
  have heq := callback_discontinuity_eq w a hctx hd
  have hfr := enqueueInitialBuffers_frame (rewind (Clear w)) true
  obtain ⟨acts, hacts, hall⟩ := enqueueInitialBuffers_log (rewind (Clear w)) true
  rcases Bool.eq_false_or_eq_true w.reachedEof with he | he
  · rw [he] at heq
    simp only [Bool.not_true, Bool.false_eq_true, if_false] at heq
    refine ⟨fun h => ?_, fun _ => ⟨heq, ?_, ?_, ?_⟩, ?_, ?_, ?_, ?_⟩
    · rw [he] at h; cases h
    · rw [heq]; rfl
    · rw [heq]; rfl
    · rw [heq]; rfl
    · rw [heq]; rfl
    · rw [heq]; rfl
    · rw [heq]; rfl
    · refine ⟨[Action.pthread_cond_signal], ?_, ?_⟩
      · rw [heq]; rfl
      · intro x hx
        rw [List.mem_singleton] at hx
        subst hx
        exact ⟨by intros; simp, by intro e h; cases h⟩
  · rw [he] at heq
    simp only [Bool.not_false, if_true] at heq
    refine ⟨fun _ => ⟨heq, rfl, ?_, rfl, rfl⟩, fun h => ?_, ?_, ?_, ?_, ?_⟩
    · simp [rewind, Clear]
    · rw [he] at h; cases h
    · rw [heq]; rfl
    · rw [heq]
      show (enqueueInitialBuffers (rewind (Clear w)) true).2.reachedEof = w.reachedEof
      rw [hfr.1]
      rfl
    · rw [heq]
      show (enqueueInitialBuffers (rewind (Clear w)) true).2.aborted = w.aborted
      rw [hfr.2.2.1]
      rfl
    · refine ⟨[Action.Clear, Action.rewind] ++ acts ++ [Action.pthread_cond_signal], ?_, ?_⟩
      · rw [heq]
        show (enqueueInitialBuffers (rewind (Clear w)) true).2.log ++ [Action.pthread_cond_signal]
          = _
        rw [hacts]
        simp [rewind, Clear]
      · intro x hx
        simp only [List.mem_append, List.mem_cons, List.mem_singleton, List.not_mem_nil,
          or_false] at hx
        rcases hx with ((hx | hx) | hx) | hx
        · subst hx; exact ⟨by intros; simp, by intro e h; cases h⟩
        · subst hx; exact ⟨by intros; simp, by intro e h; cases h⟩
        · rcases hall x hx with ⟨pos, got, lent, rfl⟩ | ⟨e, rfl, h1, h2, h3⟩
          · refine ⟨?_, by intro e h; cases h⟩
            intro dst pos1 got1 lent1 h
            injection h with _ hcount
            simp at hcount
          · refine ⟨by intros; simp, ?_⟩
            intro e1 h
            injection h with h
            subst h
            exact ⟨h3, h1, h2⟩
        · subst hx; exact ⟨by intros; simp, by intro e h; cases h⟩

/-- Witness of C2: a rewind request is pending on an open source of 400 bytes when
the first buffer comes back. -/
theorem C2_callback_discontinuity_witness :
    firstBuffer.pCallbackContext = none ∧
    ({ opened 400 with discontinuity := true } : World).discontinuity = true ∧
    (AndroidBufferQueueCallback { opened 400 with discontinuity := true }
      firstBuffer).discontinuity = false :=
  ⟨rfl, rfl,
    (C2_callback_discontinuity { opened 400 with discontinuity := true } firstBuffer
      rfl rfl).2.2.1⟩

/-! ## The callback, branch by branch -/

theorem callback_refill (w : World) (a : CallbackArgs) (off : Nat)
    (hctx : a.pCallbackContext = none) (hd : w.discontinuity = false)
    (hdata : a.pBufferData = some off) (hsize : 0 < a.dataSize)
    (hmod : a.dataSize % 188 = 0) (hoff : off < 15040) (halign : off % 1880 = 0)
    (he : w.reachedEof = false) :
    AndroidBufferQueueCallback w a =
      if 0 < (fread w off 1880).1 then
        Enqueue (fread w off 1880).2 none (some off) ((fread w off 1880).1 / 188 * 188) none 0
      else
        { Enqueue (fread w off 1880).2 (some 1980) none 0
            (some ItemKey.XA_ANDROID_ITEMKEY_EOS) 8 with reachedEof := true } := by
  have hc : BUFFER_SIZE * NB_BUFFERS = 15040 := rfl
  have h8 : (4 * 2 : Nat) = 8 := rfl
  unfold AndroidBufferQueueCallback
  simp only [hctx, hd, hdata, hc, h8, BUFFER_SIZE_eq, MPEG2_TS_PACKET_SIZE_eq,
    kEosBufferCntxt_eq, he]
  simp [hsize, hmod, hoff, halign]

theorem create_some (w : World) (bytes : List Nat) :
    naCreateStreamingMediaPlayer w (some bytes) =
      if 0 < bytes.length then
        (true, SetPlayState (SetPlayState (primed w bytes) PlayState.XA_PLAYSTATE_PAUSED)
          PlayState.XA_PLAYSTATE_PLAYING)
      else (false, primed w bytes) := by
  unfold naCreateStreamingMediaPlayer
  simp only []
  rw [enqueueInitialBuffers_open _ false 0 rfl]
  by_cases h : 0 < bytes.length
  · have h2 : 0 < min 15040 bytes.length := by omega
    simp [h, h2, primed, lentOffsets]
  · have h2 : ¬ 0 < min 15040 bytes.length := by omega
    simp [h, h2, primed, lentOffsets]

theorem create_none (w : World) :
    naCreateStreamingMediaPlayer w none = (false, { w with file := none }) := rfl

theorem afterCreate_eq (n : Nat) (h : 0 < n) :
    afterCreate n =
      SetPlayState (SetPlayState (primed loaded (List.replicate n 7))
        PlayState.XA_PLAYSTATE_PAUSED) PlayState.XA_PLAYSTATE_PLAYING := by
  unfold afterCreate
  rw [create_some]
  simp [h]

theorem primed_fields (w : World) (bytes : List Nat) :
    (primed w bytes).file = some (min 15040 bytes.length) ∧
    (primed w bytes).content = bytes ∧
    (primed w bytes).reachedEof = w.reachedEof ∧
    (primed w bytes).discontinuity = w.discontinuity ∧
    (primed w bytes).aborted = w.aborted :=
  ⟨rfl, rfl, rfl, rfl, rfl⟩

theorem afterCreate_fields (n : Nat) (h : 0 < n) :
    (afterCreate n).file = some (min 15040 n) ∧
    (afterCreate n).content = List.replicate n 7 ∧
    (afterCreate n).reachedEof = false ∧
    (afterCreate n).discontinuity = false ∧
    (afterCreate n).aborted = false ∧
    (afterCreate n).queue =
      initialItems (writeBytes (fun _ => 0) 0 ((List.replicate n 7).take 15040)) 8 0
        (min 15040 n / 188) false := by
  rw [afterCreate_eq n h]
  simp [SetPlayState, primed, loaded]

/-! ## C3: the refill branch of the callback -/

/-- What the refill does when the read delivers some bytes but less than one packet:
it enqueues the returned buffer with length 0 and leaves `reachedEof` false. -/
theorem callback_refill_subpacket (w : World) (a : CallbackArgs) (off pos : Nat)
    (hctx : a.pCallbackContext = none) (hd : w.discontinuity = false)
    (hdata : a.pBufferData = some off) (hsize : 0 < a.dataSize)
    (hmod : a.dataSize % 188 = 0) (hoff : off < 15040) (halign : off % 1880 = 0)
    (he : w.reachedEof = false) (hfile : w.file = some pos)
    (hsome : 0 < w.content.length - pos) (hshort : w.content.length - pos < 188) :
    (AndroidBufferQueueCallback w a).log = w.log ++
      [Action.fread off 1880 pos (w.content.length - pos) (lentOffsets w.queue),
       Action.Enqueue { pBufferContext := none, pData := some off, dataLength := 0,
                        pMsg := none, msgLength := 0, payload := [] }] ∧
    (AndroidBufferQueueCallback w a).reachedEof = false := by
  have hmin : min 1880 (w.content.length - pos) = w.content.length - pos := by omega
  have hdiv : (w.content.length - pos) / 188 * 188 = 0 := by
    rw [Nat.div_eq_of_lt hshort]
  rw [callback_refill w a off hctx hd hdata hsize hmod hoff halign he,
    fread_open w off 1880 pos hfile, hmin]
  simp only [hsome, if_true, hdiv]
  simp [Enqueue, readBytes, he]

theorem processedStep_eq (w : World) (i : Nat) (e : Enqueued) (h : w.queue.get? i = some e) :
    processedStep w i =
      AndroidBufferQueueCallback { w with queue := w.queue.eraseIdx i } (argsOf e) := by
  unfold processedStep
  rw [h]

theorem processed_refill_subpacket (w : World) (i : Nat) (e : Enqueued) (off pos : Nat)
    (hq : w.queue.get? i = some e) (hd : w.discontinuity = false)
    (hdata : e.pData = some off) (hsize : 0 < e.dataLength)
    (hmod : e.dataLength % 188 = 0) (hoff : off < 15040) (halign : off % 1880 = 0)
    (he : w.reachedEof = false) (hfile : w.file = some pos)
    (hsome : 0 < w.content.length - pos) (hshort : w.content.length - pos < 188) :
    enqueuesOf ((processedStep w i).log.drop w.log.length) =
      [{ pBufferContext := none, pData := some off, dataLength := 0, pMsg := none,
         msgLength := 0, payload := [] }] ∧
    (processedStep w i).reachedEof = false := by
  have h := callback_refill_subpacket { w with queue := w.queue.eraseIdx i } (argsOf e) off pos
    rfl hd hdata hsize hmod hoff halign he hfile hsome hshort
  rw [processedStep_eq w i e hq, h.1, h.2]
  simp [enqueuesOf]

theorem argsOf_initialItem (mem : Nat → Nat) :
    argsOf (initialItem mem 0 80 false) = firstBuffer := by
  simp [argsOf, initialItem, firstBuffer]

/-- C3, where the code departs from it: after a successful creation on a source of
`8 * 1880 + 100` bytes, with both flags false, the consumer returns the first buffer
(offset 0, 1880 bytes).  The read of up to 1880 bytes delivers 100 bytes, which is 0
after truncation to whole packets; the callback enqueues the returned buffer with
length 0 and no message, not the end-of-stream item, and `reachedEof` stays false. -/
theorem C3_refill_subpacket_read :
    (afterCreate 15140).discontinuity = false ∧
    (afterCreate 15140).reachedEof = false ∧
    ((afterCreate 15140).queue.get? 0).map argsOf = some firstBuffer ∧
    (fread (afterCreate 15140) 0 BUFFER_SIZE).1 = 100 ∧
    100 / MPEG2_TS_PACKET_SIZE * MPEG2_TS_PACKET_SIZE = 0 ∧
    enqueuesOf ((processedStep (afterCreate 15140) 0).log.drop (afterCreate 15140).log.length)
      = [{ pBufferContext := none, pData := some 0, dataLength := 0, pMsg := none,
           msgLength := 0, payload := [] }] ∧
    (processedStep (afterCreate 15140) 0).reachedEof = false := by
  obtain ⟨hf, hc, he, hd, _, hq⟩ := afterCreate_fields 15140 (by decide)
  have hmin : min 15040 15140 = 15040 := by decide
  have hp : 15040 / 188 = 80 := by decide
  rw [hmin] at hf
  rw [hmin, hp, initialItems_succ _ _ _ _ _ (by decide)] at hq
  have hlen : (afterCreate 15140).content.length = 15140 := by
    rw [hc, List.length_replicate]
  have hget : (afterCreate 15140).queue.get? 0 = some
      (initialItem (writeBytes (fun _ => 0) 0 ((List.replicate 15140 7).take 15040)) 0 80
        false) := by
    rw [hq]; rfl
  have hstep := processed_refill_subpacket (afterCreate 15140) 0 _ 0 15040 hget hd rfl
    (by decide) (by decide) (by decide) (by decide) he hf
    (by rw [hlen]; decide) (by rw [hlen]; decide)
  refine ⟨hd, he, ?_, ?_, by decide, hstep.1, hstep.2⟩
  · rw [hget, Option.map_some', argsOf_initialItem]
  · rw [BUFFER_SIZE_eq, fread_open _ 0 1880 15040 hf, hlen]
    show min 1880 (15140 - 15040) = 100
    decide

/-! ## C7: creation on a source without a whole packet -/

/-- What creation does on a source that holds some bytes but less than one packet:
it reports success, enqueues nothing and sets the play state to playing. -/
theorem create_subpacket (w : World) (bytes : List Nat)
    (h0 : 0 < bytes.length) (h1 : bytes.length < 188) :
    (naCreateStreamingMediaPlayer w (some bytes)).1 = true ∧
    (naCreateStreamingMediaPlayer w (some bytes)).2.log = w.log ++
      [Action.fread 0 15040 0 bytes.length [],
       Action.SetPlayState PlayState.XA_PLAYSTATE_PAUSED,
       Action.SetPlayState PlayState.XA_PLAYSTATE_PLAYING] ∧
    (naCreateStreamingMediaPlayer w (some bytes)).2.queue = [] := by
  have hmin : min 15040 bytes.length = bytes.length := by omega
  have hdiv : bytes.length / 188 = 0 := Nat.div_eq_of_lt h1
  rw [create_some, if_pos h0]
  simp [SetPlayState, primed, hmin, hdiv, initialItems_none]

/-- C7, where the code departs from it: on a source of 100 bytes (less than one packet
of 188 bytes) `naCreateStreamingMediaPlayer` reports success although the priming
enqueued no buffer: the calls made are the read, which delivers 100 bytes, and the two
`SetPlayState`, the second one to playing; the consumer holds nothing. -/
theorem C7_create_subpacket_source :
    (naCreateStreamingMediaPlayer loaded (some (List.replicate 100 7))).1 = true ∧
    (afterCreate 100).log =
      [Action.fread 0 15040 0 100 [],
       Action.SetPlayState PlayState.XA_PLAYSTATE_PAUSED,
       Action.SetPlayState PlayState.XA_PLAYSTATE_PLAYING] ∧
    enqueuesOf (afterCreate 100).log = [] ∧
    (afterCreate 100).queue = [] := by
  have hlen : (List.replicate 100 7).length = 100 := List.length_replicate 100 7
  have h := create_subpacket loaded (List.replicate 100 7) (by rw [hlen]; decide)
    (by rw [hlen]; decide)
  rw [hlen] at h
  have hlog : (afterCreate 100).log =
      [Action.fread 0 15040 0 100 [],
       Action.SetPlayState PlayState.XA_PLAYSTATE_PAUSED,
       Action.SetPlayState PlayState.XA_PLAYSTATE_PLAYING] := h.2.1
  refine ⟨h.1, hlog, ?_, h.2.2⟩
  rw [hlog]
  rfl

/-! ## The flags across shutdown and creation -/

theorem naShutdown_fields (w : World) :
    (naShutdown w).reachedEof = w.reachedEof ∧
    (naShutdown w).discontinuity = w.discontinuity ∧
    (naShutdown w).aborted = w.aborted ∧
    (naShutdown w).log = w.log ∧
    (naShutdown w).file = none ∧
    (naShutdown w).playerObj = false := by
  rcases w with ⟨eo, ee, om, po, pp, pb, pv, nw, dc, ct, f, re, d, q, l, ab⟩
  cases po <;> cases om <;> cases eo <;> cases f <;> cases nw <;>
    exact ⟨rfl, rfl, rfl, rfl, rfl, rfl⟩

theorem create_flags (w : World) (o : Option (List Nat)) :
    (naCreateStreamingMediaPlayer w o).2.reachedEof = w.reachedEof ∧
    (naCreateStreamingMediaPlayer w o).2.discontinuity = w.discontinuity ∧
    (naCreateStreamingMediaPlayer w o).2.aborted = w.aborted := by
  cases o with
  | none => rw [create_none]; exact ⟨rfl, rfl, rfl⟩
  | some bytes =>
    rw [create_some]
    by_cases h : 0 < bytes.length
    · rw [if_pos h]
      simp [SetPlayState, primed]
    · rw [if_neg h]
      simp [primed]

theorem callback_after_eos (w : World) (a : CallbackArgs) (off : Nat)
    (hctx : a.pCallbackContext = none) (hd : w.discontinuity = false)
    (hdata : a.pBufferData = some off) (hsize : 0 < a.dataSize)
    (hmod : a.dataSize % 188 = 0) (hoff : off < 15040) (halign : off % 1880 = 0)
    (he : w.reachedEof = true) :
    AndroidBufferQueueCallback w a = w := by
  have hc : BUFFER_SIZE * NB_BUFFERS = 15040 := rfl
  unfold AndroidBufferQueueCallback
  simp only [hctx, hd, hdata, hc, BUFFER_SIZE_eq, MPEG2_TS_PACKET_SIZE_eq, he]
  simp [hsize, hmod, hoff, halign]

theorem callback_refill_eos (w : World) (a : CallbackArgs) (off pos : Nat)
    (hctx : a.pCallbackContext = none) (hd : w.discontinuity = false)
    (hdata : a.pBufferData = some off) (hsize : 0 < a.dataSize)
    (hmod : a.dataSize % 188 = 0) (hoff : off < 15040) (halign : off % 1880 = 0)
    (he : w.reachedEof = false) (hfile : w.file = some pos)
    (hend : w.content.length - pos = 0) :
    AndroidBufferQueueCallback w a =
      { w with
        file := some pos
        dataCache := writeBytes w.dataCache off []
        reachedEof := true
        queue := w.queue ++
          [{ pBufferContext := some 1980, pData := none, dataLength := 0,
             pMsg := some ItemKey.XA_ANDROID_ITEMKEY_EOS, msgLength := 8, payload := [] }]
        log := w.log ++
          [Action.fread off 1880 pos 0 (lentOffsets w.queue),
           Action.Enqueue
             { pBufferContext := some 1980, pData := none, dataLength := 0,
               pMsg := some ItemKey.XA_ANDROID_ITEMKEY_EOS, msgLength := 8, payload := [] }] } := by
  have hlen : w.content.length ≤ pos := by omega
  rw [callback_refill w a off hctx hd hdata hsize hmod hoff halign he,
    fread_open w off 1880 pos hfile, hend]
  simp [Enqueue, List.drop_eq_nil_of_le hlen]

theorem create_queue (w : World) (bytes : List Nat) (h : 0 < bytes.length) :
    (naCreateStreamingMediaPlayer w (some bytes)).1 = true ∧
    (naCreateStreamingMediaPlayer w (some bytes)).2.queue =
      initialItems (writeBytes w.dataCache 0 (bytes.take 15040)) 8 0
        (min 15040 bytes.length / 188) false ∧
    (naCreateStreamingMediaPlayer w (some bytes)).2.file = some (min 15040 bytes.length) ∧
    (naCreateStreamingMediaPlayer w (some bytes)).2.content = bytes := by
  rw [create_some, if_pos h]
  exact ⟨rfl, rfl, rfl, rfl⟩

theorem initialItems_one (mem : Nat → Nat) :
    initialItems mem 8 0 1 false = [initialItem mem 0 1 false] := by
  rw [initialItems_succ _ _ _ _ _ (by decide)]
  have h : 1 - min 10 1 = 0 := by decide
  rw [h, initialItems_none]

theorem processed_after_eos (w : World) (i : Nat) (e : Enqueued) (off : Nat)
    (hq : w.queue.get? i = some e) (hd : w.discontinuity = false)
    (hdata : e.pData = some off) (hsize : 0 < e.dataLength)
    (hmod : e.dataLength % 188 = 0) (hoff : off < 15040) (halign : off % 1880 = 0)
    (he : w.reachedEof = true) :
    processedStep w i = { w with queue := w.queue.eraseIdx i } := by
  rw [processedStep_eq w i e hq]
  exact callback_after_eos _ (argsOf e) off rfl hd hdata hsize hmod hoff halign he

theorem processed_refill_eos (w : World) (i : Nat) (e : Enqueued) (off pos : Nat)
    (hq : w.queue.get? i = some e) (hd : w.discontinuity = false)
    (hdata : e.pData = some off) (hsize : 0 < e.dataLength)
    (hmod : e.dataLength % 188 = 0) (hoff : off < 15040) (halign : off % 1880 = 0)
    (he : w.reachedEof = false) (hfile : w.file = some pos)
    (hend : w.content.length - pos = 0) :
    (processedStep w i).reachedEof = true ∧
    (processedStep w i).discontinuity = false ∧
    enqueuesOf ((processedStep w i).log.drop w.log.length) =
      [{ pBufferContext := some 1980, pData := none, dataLength := 0,
         pMsg := some ItemKey.XA_ANDROID_ITEMKEY_EOS, msgLength := 8, payload := [] }] ∧
    (processedStep w i).playerBQItf = w.playerBQItf ∧
    (processedStep w i).file = w.file ∧
    (processedStep w i).aborted = w.aborted := by
  rw [processedStep_eq w i e hq,
    callback_refill_eos { w with queue := w.queue.eraseIdx i } (argsOf e) off pos rfl hd hdata
      hsize hmod hoff halign he hfile hend]
  refine ⟨rfl, hd, ?_, rfl, hfile.symm, rfl⟩
  simp [enqueuesOf]

/-! ## C10: the flags after a second creation -/

theorem firstSessionOver_eq :
    firstSessionOver = naShutdown (processedStep (afterCreate 188) 0) := rfl

theorem secondCreate_eq :
    secondCreate = naCreateStreamingMediaPlayer firstSessionOver (some (List.replicate 188 7)) :=
  rfl

theorem argsOf_initialItem_one (mem : Nat → Nat) :
    argsOf (initialItem mem 0 1 false) =
      { pCallbackContext := none, pBufferContext := none, pBufferData := some 0,
        dataSize := 188 } := by
  simp [argsOf, initialItem]

/-- C10, where the code departs from it: a first session on a source of one packet
reaches the end of the stream (the consumer returns the only buffer, the refill reads
nothing, `reachedEof` becomes true) and is shut down.  A second
`naCreateStreamingMediaPlayer` then succeeds with `reachedEof` still true, and when the
consumer returns the first buffer of the new player the callback does nothing: no
read, no enqueue. -/
theorem C10_reachedEof_survives_shutdown :
    (afterCreate 188).reachedEof = false ∧
    (processedStep (afterCreate 188) 0).reachedEof = true ∧
    firstSessionOver.reachedEof = true ∧
    firstSessionOver.file = none ∧
    firstSessionOver.playerObj = false ∧
    secondCreate.1 = true ∧
    secondCreate.2.reachedEof = true ∧
    secondCreate.2.discontinuity = false ∧
    (secondCreate.2.queue.get? 0).map argsOf = some
      { pCallbackContext := none, pBufferContext := none, pBufferData := some 0,
        dataSize := 188 } ∧
    (processedStep secondCreate.2 0).log = secondCreate.2.log := by
  obtain ⟨hf, hc, he, hd, _, hq⟩ := afterCreate_fields 188 (by decide)
  have hmin : min 15040 188 = 188 := by decide
  have hp : 188 / 188 = 1 := by decide
  have hlen : (List.replicate 188 7).length = 188 := List.length_replicate 188 7
  rw [hmin] at hf
  rw [hmin, hp, initialItems_one] at hq
  have hget : (afterCreate 188).queue.get? 0 = some
      (initialItem (writeBytes (fun _ => 0) 0 ((List.replicate 188 7).take 15040)) 0 1
        false) := by
    rw [hq]; rfl
  have hstep := processed_refill_eos (afterCreate 188) 0 _ 0 188 hget hd rfl
    (by decide) (by decide) (by decide) (by decide) he hf
    (by rw [hc, hlen])
  obtain ⟨hs1, hs2, _, _, hs5, hs6⟩ := naShutdown_fields (processedStep (afterCreate 188) 0)
  have hover : firstSessionOver.reachedEof = true := by
    rw [firstSessionOver_eq, hs1, hstep.1]
  have hoverd : firstSessionOver.discontinuity = false := by
    rw [firstSessionOver_eq, hs2, hstep.2.1]
  obtain ⟨hc1, hc2, _⟩ := create_flags firstSessionOver (some (List.replicate 188 7))
  obtain ⟨hk1, hk2, _, _⟩ := create_queue firstSessionOver (List.replicate 188 7)
    (by rw [hlen]; decide)
  rw [hlen, hmin, hp, initialItems_one] at hk2
  have he2 : secondCreate.2.reachedEof = true := by
    rw [secondCreate_eq, hc1, hover]
  have hd2 : secondCreate.2.discontinuity = false := by
    rw [secondCreate_eq, hc2, hoverd]
  have hget2 : secondCreate.2.queue.get? 0 = some
      (initialItem (writeBytes firstSessionOver.dataCache 0 ((List.replicate 188 7).take 15040))
        0 1 false) := by
    rw [secondCreate_eq, hk2]; rfl
  have hnop := processed_after_eos secondCreate.2 0 _ 0 hget2 hd2 rfl
    (by decide) (by decide) (by decide) (by decide) he2
  refine ⟨he, hstep.1, hover, ?_, ?_, ?_, he2, hd2, ?_, ?_⟩
  · rw [firstSessionOver_eq]; exact hs5
  · rw [firstSessionOver_eq]; exact hs6
  · rw [secondCreate_eq]; exact hk1
  · rw [hget2, Option.map_some', argsOf_initialItem_one]
  · rw [hnop]

/-! ## C9: the state after a failed creation -/

theorem failedCreate_eq : failedCreate = (false, primed loaded []) := by
  unfold failedCreate
  rw [create_some]
  simp

/-- C9, where the code departs from it: on a file that opens and is empty the priming
reads nothing and `naCreateStreamingMediaPlayer` reports failure, yet the source handle
and the player, play and buffer queue handles are left set.  The guard of a following
rewind passes: the request raises `discontinuity`, and with no callback invocation to
come (nothing was enqueued) the wait never ends.  When the file cannot be opened, the
handles are as before the call and the rewind is a no-op. -/
theorem C9_failed_create_keeps_handles :
    failedCreate.1 = false ∧
    failedCreate.2.file = some 0 ∧
    failedCreate.2.playerObj = true ∧
    failedCreate.2.playerPlayItf = true ∧
    failedCreate.2.playerBQItf = true ∧
    failedCreate.2.queue = [] ∧
    enqueuesOf failedCreate.2.log = [] ∧
    (rewindRequest failedCreate.2).discontinuity = true ∧
    naRewindStreamingMediaPlayer failedCreate.2 [] = none ∧
    naRewindStreamingMediaPlayer failedCreate.2 [[], []] = none ∧
    (naCreateStreamingMediaPlayer loaded none).1 = false ∧
    (naCreateStreamingMediaPlayer loaded none).2.file = none ∧
    (naCreateStreamingMediaPlayer loaded none).2.playerObj = false ∧
    (naCreateStreamingMediaPlayer loaded none).2.playerPlayItf = false ∧
    (naCreateStreamingMediaPlayer loaded none).2.playerBQItf = false ∧
    naRewindStreamingMediaPlayer (naCreateStreamingMediaPlayer loaded none).2 [] =
      some (naCreateStreamingMediaPlayer loaded none).2 := by
  rw [failedCreate_eq]
  refine ⟨rfl, rfl, rfl, rfl, rfl, rfl, rfl, rfl, ?_, ?_, rfl, rfl, rfl, rfl, rfl, rfl⟩
  · simp [naRewindStreamingMediaPlayer, rewindWait, primed, loaded]
  · simp [naRewindStreamingMediaPlayer, rewindWait, primed, loaded]

/-! ## C6: the flag when the rewind returns -/

end OpenMAXSLDemo
